import Mathlib

/-!
Verification of the OAuth demo authentication core (auth-service and
resource-service) against its specification.  The Python services are
shallowly embedded: the in-memory `oauth_states` dict becomes an
association list with explicit time passing, the PyJWT encode/decode pair
becomes an idealized signed-token codec (the HMAC is modelled as a perfect
MAC: a signature is valid exactly when it was produced from the same
secret and payload), and each Flask handler becomes a pure function of its
inputs.  Times are integers (seconds), matching the second-granularity
constants of the source (600 seconds state expiry, 8 hours = 28800 seconds
token lifetime).
-/

/-- Value stored in the `oauth_states` dict for one state token:
`\x7b'timestamp': time.time(), 'used': False\x7d` (auth-service app.py, lines 80-83). -/
structure StateData where
  timestamp : Int
  used : Bool
deriving DecidableEq, Repr

/-- The in-memory `oauth_states` dict (auth-service app.py, line 19),
modelled as an association list from state strings to their records. -/
abbrev StateMap := List (String × StateData)

/-- Dict membership / indexing: first binding for a key, if any. -/
def lookupState : StateMap → String → Option StateData
  | [], _ => none
  | (k, d) :: rest, s => if k = s then some d else lookupState rest s

/-- A Python dict never holds two bindings for one key; the association
list faithfully represents `oauth_states` only when its keys are distinct. -/
abbrev NodupKeys (m : StateMap) : Prop := (m.map Prod.fst).Nodup

/-- Function `cleanup_expired_states` (auth-service app.py, lines 69-75):
deletes every record with `current_time - data['timestamp'] > 600`,
i.e. keeps exactly the records with `now - timestamp <= 600`. -/
def cleanup_expired_states (now : Int) (m : StateMap) : StateMap :=
  m.filter fun p => decide (now - p.2.timestamp ≤ 600)

/-- Dict assignment `oauth_states[state] = ...`: replace the binding in
place if the key is present, otherwise append it. -/
def insertState : StateMap → String → StateData → StateMap
  | [], s, d => [(s, d)]
  | (k, d0) :: rest, s, d =>
      if k = s then (k, d) :: rest else (k, d0) :: insertState rest s d

/-- Function `store_oauth_state` (auth-service app.py, lines 77-83): runs
the expiry sweep, then stores the state with the current timestamp and
`used = False`. -/
def store_oauth_state (m : StateMap) (s : String) (now : Int) : StateMap :=
  insertState (cleanup_expired_states now m) s { timestamp := now, used := false }

/-- Mutation `oauth_states[state]['used'] = True` on the (unique) binding
for the key. -/
def markUsed : StateMap → String → StateMap
  | [], _ => []
  | (k, d) :: rest, s =>
      if k = s then (k, { timestamp := d.timestamp, used := true }) :: rest
      else (k, d) :: markUsed rest s

/-- Function `verify_oauth_state` (auth-service app.py, lines 85-91): runs
the expiry sweep, then consumes the state iff it is present and not yet
used; returns the boolean outcome together with the updated store. -/
def verify_oauth_state (m : StateMap) (s : String) (now : Int) : Bool × StateMap :=
  let m1 := cleanup_expired_states now m
  match lookupState m1 s with
  | some d => if d.used then (false, m1) else (true, markUsed m1 s)
  | none => (false, m1)

/-- Identity fields fed to `create_jwt_token` (the `user_info` dict built
in `oauth_callback`, auth-service app.py, lines 253-259). -/
structure UserInfo where
  sub : String
  email : String
  name : String
  role : String
  picture : String
deriving DecidableEq, Repr

/-- The JWT payload dict built by `create_jwt_token` (auth-service app.py,
lines 99-106): keys `sub`, `email`, `name`, `role`, `picture`, `exp`. -/
structure Payload where
  sub : String
  email : String
  name : String
  role : String
  picture : String
  exp : Int
deriving DecidableEq, Repr

/-- A JWT claim value is a string or a numeric date (the `exp` claim). -/
inductive ClaimValue where
  | str (s : String)
  | time (t : Int)
deriving DecidableEq, Repr

/-- The payload as the literal key/value dict of the source (auth-service
app.py, lines 99-106), used to reason about which claims a token carries. -/
def Payload.toDict (p : Payload) : List (String × ClaimValue) :=
  [("sub", .str p.sub), ("email", .str p.email), ("name", .str p.name),
   ("role", .str p.role), ("picture", .str p.picture), ("exp", .time p.exp)]

/-- The key set of the payload dict of `create_jwt_token`. -/
def payloadKeys : List String := ["sub", "email", "name", "role", "picture", "exp"]

/-- An HS256 signature, idealized as a perfect MAC: it is determined by,
and determines, the signing secret and the signed payload. -/
structure Sig where
  secret : String
  signedPayload : Payload
deriving DecidableEq, Repr

/-- Signing a payload with a symmetric secret (`jwt.encode(payload,
JWT_SECRET, algorithm='HS256')`, signature part). -/
def sign (secret : String) (p : Payload) : Sig := ⟨secret, p⟩

/-- A serialized token string as the decoder sees it: either a well-formed
JWT carrying a payload and a signature, or a structurally malformed
string (PyJWT raises `DecodeError`, a subtype of `InvalidTokenError`). -/
inductive SerializedToken where
  | wellFormed (payload : Payload) (sig : Sig)
  | malformed (raw : String)
deriving DecidableEq, Repr

/-- The payload dict of `create_jwt_token` (auth-service app.py, lines
99-106): identity fields plus `exp = utcnow() + 8 hours`; 8 hours is
28800 seconds. -/
def create_jwt_payload (now : Int) (u : UserInfo) : Payload :=
  { sub := u.sub, email := u.email, name := u.name, role := u.role,
    picture := u.picture, exp := now + 28800 }

/-- Function `create_jwt_token` (auth-service app.py, lines 97-107):
builds the payload and signs it with `JWT_SECRET`. -/
def create_jwt_token (secret : String) (now : Int) (u : UserInfo) : SerializedToken :=
  .wellFormed (create_jwt_payload now u) (sign secret (create_jwt_payload now u))

/-- Function `verify_jwt_token` (auth-service app.py, lines 109-117, and
identically resource-service app.py, lines 89-97): `jwt.decode` checks
structure, signature and the `exp` claim (PyJWT treats `exp <= now` as
expired); every failure is caught and mapped to `None`. -/
def verify_jwt_token (secret : String) (now : Int) : SerializedToken → Option Payload
  | .malformed _ => none
  | .wellFormed p s =>
      if s = sign secret p then
        if p.exp ≤ now then none else some p
      else none

/-- Handler `refresh_token` (auth-service app.py, lines 305-331), token
already extracted from the request body: verify, and on success mint a
fresh token from the verified claims (`sub`, `email`, `name`, `role`,
`picture`); on failure answer 401 with no token, modelled as `none`. -/
def refresh_token (secret : String) (now : Int) (t : SerializedToken) : Option SerializedToken :=
  match verify_jwt_token secret now t with
  | none => none
  | some p =>
      some (create_jwt_token secret now
        { sub := p.sub, email := p.email, name := p.name, role := p.role,
          picture := p.picture })

/-- Role requirement of a protected route in the resource service:
`login_required` alone, or `login_required` plus `admin_required`. -/
inductive RequiredRole where
  | anyAuthenticated
  | admin
deriving DecidableEq, Repr

/-- The `admin_required` test (resource-service app.py, lines 117-124):
access is granted iff `request.user.get('role') == 'admin'`. -/
def admin_check (claims : Payload) : Bool := claims.role = "admin"

/-- The access decision for a request whose token already verified
(`request.user = payload`): `login_required` admits every verified claim
set (resource-service app.py, lines 99-115); `admin_required` additionally
requires the role claim to equal `admin` (lines 117-124). -/
def authorize (claims : Payload) (required : RequiredRole) : Bool :=
  match required with
  | .anyAuthenticated => true
  | .admin => admin_check claims

/-- Outcome of the `/auth/callback` handler up to (and excluding) the
external code-for-token exchange: the two early rejections, or the
decision to proceed to the exchange with the received code. -/
inductive CallbackStep where
  | state_mismatch
  | no_code
  | proceed (code : String)
deriving DecidableEq, Repr

/-- The `state_valid` computation of `oauth_callback` (auth-service
app.py, lines 194-204): with a state parameter present, first
`verify_oauth_state` against the store, and as a backup the comparison
with the session-cookie echo `session['oauth_state']`; returns the flag
together with the store left by `verify_oauth_state`. -/
def callback_state_check (m : StateMap) (sessionState reqState : Option String)
    (now : Int) : Bool × StateMap :=
  match reqState with
  | none => (false, m)
  | some s =>
      let r := verify_oauth_state m s now
      if r.1 then (true, r.2)
      else if some s = sessionState then (true, r.2)
      else (false, r.2)

/-- Handler `oauth_callback` (auth-service app.py, lines 179-216) up to
the external call: reject with `state_mismatch` if the state check fails
(lines 206-209), then reject with `no_code` if the `code` parameter is
absent (lines 211-214), else proceed to the token exchange. -/
def oauth_callback_pre (m : StateMap) (sessionState reqState reqCode : Option String)
    (now : Int) : CallbackStep × StateMap :=
  let r := callback_state_check m sessionState reqState now
  if r.1 then
    match reqCode with
    | none => (.no_code, r.2)
    | some c => (.proceed c, r.2)
  else (.state_mismatch, r.2)

theorem lookupState_mem {m : StateMap} {s : String} {d : StateData}
    (h : lookupState m s = some d) : (s, d) ∈ m := by
  induction m with
  | nil => simp [lookupState] at h
  | cons q rest ih =>
      obtain ⟨k, d0⟩ := q
      by_cases hk : k = s
      · subst hk
        simp [lookupState] at h
        subst h
        exact List.mem_cons_self _ _
      · simp [lookupState, hk] at h
        exact List.mem_cons_of_mem _ (ih h)

theorem lookupState_eq_none {m : StateMap} {s : String}
    (h : s ∉ m.map Prod.fst) : lookupState m s = none := by
  induction m with
  | nil => rfl
  | cons q rest ih =>
      obtain ⟨k, d0⟩ := q
      simp only [List.map_cons, List.mem_cons, not_or] at h
      have hk : k ≠ s := fun hks => h.1 hks.symm
      simp [lookupState, hk, ih h.2]

theorem lookupState_filter (p : String × StateData → Bool) {m : StateMap} (s : String)
    (hnd : NodupKeys m) :
    lookupState (m.filter p) s =
      (lookupState m s).bind fun d => if p (s, d) = true then some d else none := by
  induction m with
  | nil => rfl
  | cons q rest ih =>
      obtain ⟨k, d0⟩ := q
      have hnd1 : (k :: rest.map Prod.fst).Nodup := hnd
      have hpair := List.nodup_cons.mp hnd1
      have hk1 : k ∉ rest.map Prod.fst := hpair.1
      have hnd2 : NodupKeys rest := hpair.2
      by_cases hk : k = s
      · subst hk
        by_cases hp : p (k, d0) = true
        · simp [List.filter_cons_of_pos hp, lookupState, hp]
        · have hnone : lookupState (rest.filter p) k = none := by
            apply lookupState_eq_none
            intro hmem
            have hsub : (rest.filter p).map Prod.fst ⊆ rest.map Prod.fst :=
              List.map_subset _ (List.filter_subset' rest)
            exact hk1 (hsub hmem)
          simp [List.filter_cons_of_neg (by simpa using hp), lookupState, hp, hnone]
      · by_cases hp : p (k, d0) = true
        · simp [List.filter_cons_of_pos hp, lookupState, hk, ih hnd2]
        · simp [List.filter_cons_of_neg (by simpa using hp), lookupState, hk, ih hnd2]

theorem lookupState_markUsed (m : StateMap) (s q : String) :
    lookupState (markUsed m s) q =
      if q = s then
        (lookupState m s).map fun d => { timestamp := d.timestamp, used := true }
      else lookupState m q := by
  induction m with
  | nil => simp [markUsed, lookupState]
  | cons x rest ih =>
      obtain ⟨k, d0⟩ := x
      by_cases hk : k = s
      · subst hk
        by_cases hq : q = k
        · subst hq
          simp [markUsed, lookupState]
        · have hq2 : ¬ k = q := fun hh => hq hh.symm
          simp [markUsed, lookupState, hq, hq2]
      · by_cases hq : k = q
        · subst hq
          have hqs : ¬ k = s := hk
          simp [markUsed, lookupState, hk, hqs]
        · have hq2 : ¬ q = k := fun hh => hq hh.symm
          simp [markUsed, lookupState, hk, hq, hq2, ih]

theorem keys_markUsed (m : StateMap) (s : String) :
    (markUsed m s).map Prod.fst = m.map Prod.fst := by
  induction m with
  | nil => rfl
  | cons x rest ih =>
      obtain ⟨k, d0⟩ := x
      by_cases hk : k = s <;> simp [markUsed, hk, ih]

theorem nodupKeys_filter (p : String × StateData → Bool) {m : StateMap}
    (h : NodupKeys m) : NodupKeys (m.filter p) :=
  List.Nodup.sublist (List.Sublist.map Prod.fst (List.filter_sublist m)) h

theorem nodupKeys_markUsed {m : StateMap} (s : String)
    (h : NodupKeys m) : NodupKeys (markUsed m s) := by
  unfold NodupKeys
  rw [keys_markUsed]
  exact h

theorem lookupState_insertState_self (m : StateMap) (s : String) (d : StateData) :
    lookupState (insertState m s d) s = some d := by
  induction m with
  | nil => simp [insertState, lookupState]
  | cons x rest ih =>
      obtain ⟨k, d0⟩ := x
      by_cases hk : k = s <;> simp [insertState, lookupState, hk, ih]

theorem mem_insertState {m : StateMap} {s : String} {d : StateData}
    {x : String × StateData} (h : x ∈ insertState m s d) :
    x = (s, d) ∨ x ∈ m := by
  induction m with
  | nil =>
      simp only [insertState, List.mem_singleton] at h
      exact Or.inl h
  | cons y rest ih =>
      obtain ⟨k, d0⟩ := y
      by_cases hk : k = s
      · rw [show insertState ((k, d0) :: rest) s d = (k, d) :: rest from by
          simp [insertState, hk]] at h
        rcases List.mem_cons.mp h with h1 | h1
        · exact Or.inl (by rw [h1, hk])
        · exact Or.inr (List.mem_cons_of_mem _ h1)
      · rw [show insertState ((k, d0) :: rest) s d = (k, d0) :: insertState rest s d from by
          simp [insertState, hk]] at h
        rcases List.mem_cons.mp h with h1 | h1
        · exact Or.inr (by rw [h1]; exact List.mem_cons_self _ _)
        · rcases ih h1 with h2 | h2
          · exact Or.inl h2
          · exact Or.inr (List.mem_cons_of_mem _ h2)

theorem mem_keys_insertState {m : StateMap} {s q : String} {d : StateData}
    (h : q ∈ (insertState m s d).map Prod.fst) :
    q ∈ m.map Prod.fst ∨ q = s := by
  rcases List.mem_map.mp h with ⟨x, hx, hfst⟩
  rcases mem_insertState hx with h1 | h1
  · right; rw [← hfst, h1]
  · left; exact hfst ▸ List.mem_map_of_mem Prod.fst h1

theorem nodupKeys_insertState {m : StateMap} (s : String) (d : StateData)
    (h : NodupKeys m) : NodupKeys (insertState m s d) := by
  induction m with
  | nil => simp [insertState, NodupKeys]
  | cons x rest ih =>
      obtain ⟨k, d0⟩ := x
      have hnd1 : (k :: rest.map Prod.fst).Nodup := h
      have hpair := List.nodup_cons.mp hnd1
      have hk1 : k ∉ rest.map Prod.fst := hpair.1
      have hnd2 : NodupKeys rest := hpair.2
      by_cases hk : k = s
      · subst hk
        rw [show insertState ((k, d0) :: rest) k d = (k, d) :: rest from by
          simp [insertState]]
        exact hnd1
      · have hrec := ih hnd2
        have hk2 : k ∉ (insertState rest s d).map Prod.fst := by
          intro hmem
          rcases mem_keys_insertState hmem with h1 | h1
          · exact hk1 h1
          · exact hk h1
        rw [show insertState ((k, d0) :: rest) s d = (k, d0) :: insertState rest s d from by
          simp [insertState, hk]]
        exact List.nodup_cons.mpr ⟨hk2, hrec⟩

theorem mem_markUsed_timestamp {m : StateMap} {s q : String} {d : StateData}
    (h : (q, d) ∈ markUsed m s) :
    ∃ d0, (q, d0) ∈ m ∧ d.timestamp = d0.timestamp := by
  induction m with
  | nil => simp [markUsed] at h
  | cons x rest ih =>
      obtain ⟨k, d0⟩ := x
      by_cases hk : k = s
      · rw [show markUsed ((k, d0) :: rest) s =
            (k, { timestamp := d0.timestamp, used := true }) :: rest from by
          simp [markUsed, hk]] at h
        rcases List.mem_cons.mp h with h1 | h1
        · have hq : q = k := congrArg Prod.fst h1
          have hd : d = { timestamp := d0.timestamp, used := true } :=
            congrArg Prod.snd h1
          exact ⟨d0, by rw [hq]; exact List.mem_cons_self _ _, by rw [hd]⟩
        · exact ⟨d, List.mem_cons_of_mem _ h1, rfl⟩
      · rw [show markUsed ((k, d0) :: rest) s = (k, d0) :: markUsed rest s from by
          simp [markUsed, hk]] at h
        rcases List.mem_cons.mp h with h1 | h1
        · have hq : q = k := congrArg Prod.fst h1
          have hd : d = d0 := congrArg Prod.snd h1
          exact ⟨d0, by rw [hq]; exact List.mem_cons_self _ _, by rw [hd]⟩
        · rcases ih h1 with ⟨d1, hd1, ht⟩
          exact ⟨d1, List.mem_cons_of_mem _ hd1, ht⟩

theorem verify_oauth_state_char (m : StateMap) (s : String) (now : Int)
    (hnd : NodupKeys m) :
    verify_oauth_state m s now =
      match lookupState m s with
      | some d =>
          if now - d.timestamp ≤ 600 then
            if d.used then (false, cleanup_expired_states now m)
            else (true, markUsed (cleanup_expired_states now m) s)
          else (false, cleanup_expired_states now m)
      | none => (false, cleanup_expired_states now m) := by
  have hcl : lookupState (cleanup_expired_states now m) s =
      (lookupState m s).bind fun d =>
        if decide (now - d.timestamp ≤ 600) = true then some d else none :=
    lookupState_filter (fun x => decide (now - x.2.timestamp ≤ 600)) s hnd
  cases hm : lookupState m s with
  | none =>
      rw [hm] at hcl
      simp only [Option.none_bind] at hcl
      simp only [verify_oauth_state, hcl]
  | some d =>
      rw [hm] at hcl
      by_cases ht : now - d.timestamp ≤ 600
      · have hcl2 : lookupState (cleanup_expired_states now m) s = some d := by
          rw [hcl, Option.some_bind, if_pos (decide_eq_true ht)]
        simp only [verify_oauth_state, hcl2]
        rw [if_pos ht]
      · have hcl2 : lookupState (cleanup_expired_states now m) s = none := by
          rw [hcl, Option.some_bind, if_neg (fun h => ht (of_decide_eq_true h))]
        simp only [verify_oauth_state, hcl2]
        rw [if_neg ht]

example : (verify_oauth_state [("a", ⟨0, false⟩)] "a" 5).1 = true := by decide
example : (verify_oauth_state [("a", ⟨0, false⟩)] "a" 601).1 = false := by decide
example : (verify_oauth_state [("a", ⟨0, true⟩)] "a" 5).1 = false := by decide
example :
    (oauth_callback_pre [("a", ⟨0, true⟩)] (some "a") (some "a") (some "c") 5).1 =
      .proceed "c" := by decide
example : (oauth_callback_pre [] none (some "a") none 5).1 = .state_mismatch := by decide
example :
    verify_jwt_token "k" 3 (create_jwt_token "k" 0 ⟨"s", "e", "n", "user", ""⟩) =
      some (create_jwt_payload 0 ⟨"s", "e", "n", "user", ""⟩) := by decide

/-- C2: StateStore.consume (verify_oauth_state) returns true and marks the
record consumed iff the record exists, is not yet consumed, and was
created at most 10 minutes (600 seconds) ago; in every other case (not
found, already consumed, expired) it returns false, and after a
successful consume every later consume of the same token returns false,
so consume succeeds at most once per issued token. -/
theorem verify_oauth_state_consume_spec (m : StateMap) (s : String) (now : Int)
    (hnd : NodupKeys m) :
    ((verify_oauth_state m s now).1 = true ↔
      ∃ d, lookupState m s = some d ∧ d.used = false ∧ now - d.timestamp ≤ 600)
    ∧ ((verify_oauth_state m s now).1 = true →
        ∀ t, (verify_oauth_state (verify_oauth_state m s now).2 s t).1 = false) := by
  have hchar := verify_oauth_state_char m s now hnd
  constructor
  · rw [hchar]
    cases hm : lookupState m s with
    | none => simp
    | some d =>
        by_cases ht : now - d.timestamp ≤ 600
        · by_cases hu : d.used = true
          · simp [ht, hu]
          · simp only [Bool.not_eq_true] at hu
            simp [ht, hu]
            omega
        · simp [ht]
          intro _
          omega
  · intro htrue t
    rw [hchar] at htrue
    cases hm : lookupState m s with
    | none => rw [hm] at htrue; simp at htrue
    | some d =>
        rw [hm] at htrue
        by_cases ht : now - d.timestamp ≤ 600
        · by_cases hu : d.used = true
          · simp [ht, hu] at htrue
          · have hsnd : (verify_oauth_state m s now).2 =
                markUsed (cleanup_expired_states now m) s := by
              rw [hchar, hm]
              simp [ht, hu]
            rw [hsnd]
            have hnd1 : NodupKeys (cleanup_expired_states now m) :=
              nodupKeys_filter _ hnd
            have hnd2 : NodupKeys (markUsed (cleanup_expired_states now m) s) :=
              nodupKeys_markUsed _ hnd1
            have hlk1 : lookupState (cleanup_expired_states now m) s = some d := by
              have hcl : lookupState (cleanup_expired_states now m) s =
                  (lookupState m s).bind fun d1 =>
                    if decide (now - d1.timestamp ≤ 600) = true then some d1
                    else none :=
                lookupState_filter (fun x => decide (now - x.2.timestamp ≤ 600)) s hnd
              rw [hcl, hm, Option.some_bind, if_pos (decide_eq_true ht)]
            have hlk2 : lookupState (markUsed (cleanup_expired_states now m) s) s =
                some { timestamp := d.timestamp, used := true } := by
              rw [lookupState_markUsed, if_pos rfl, hlk1]
              rfl
            rw [verify_oauth_state_char _ _ _ hnd2, hlk2]
            by_cases ht2 : t - d.timestamp ≤ 600
            · simp [ht2]
            · simp [ht2]
        · simp [ht] at htrue

/-- Witness for C2: a fresh five-second-old record is consumable exactly
as the characterization states. -/
theorem verify_oauth_state_consume_spec_witness :
    (((verify_oauth_state [("a", ⟨0, false⟩)] "a" 5).1 = true ↔
      ∃ d, lookupState [("a", ⟨0, false⟩)] "a" = some d ∧ d.used = false ∧
        (5 : Int) - d.timestamp ≤ 600)
    ∧ ((verify_oauth_state [("a", ⟨0, false⟩)] "a" 5).1 = true →
        ∀ t, (verify_oauth_state (verify_oauth_state [("a", ⟨0, false⟩)] "a" 5).2
          "a" t).1 = false)) :=
  verify_oauth_state_consume_spec [("a", ⟨0, false⟩)] "a" 5 (by decide)

/-- C9: after store_oauth_state or verify_oauth_state runs at time `now`,
every record remaining in the state map was created at most 600 seconds
before `now` — both operations run the expiry sweep first, so no expired
record survives either operation. -/
theorem state_ops_leave_no_expired (m : StateMap) (s q : String) (now : Int)
    (d : StateData) :
    (lookupState (store_oauth_state m s now) q = some d → now - d.timestamp ≤ 600)
    ∧ (lookupState (verify_oauth_state m s now).2 q = some d →
        now - d.timestamp ≤ 600) := by
  constructor
  · intro h
    rcases mem_insertState (lookupState_mem h) with h1 | h1
    · have hd : d = { timestamp := now, used := false } := congrArg Prod.snd h1
      rw [hd]
      simp
    · have hp := (List.mem_filter.mp h1).2
      simpa using hp
  · intro h
    have hsnd : (verify_oauth_state m s now).2 = cleanup_expired_states now m ∨
        (verify_oauth_state m s now).2 =
          markUsed (cleanup_expired_states now m) s := by
      simp only [verify_oauth_state]
      cases lookupState (cleanup_expired_states now m) s with
      | none => exact Or.inl rfl
      | some d1 =>
          by_cases hu : d1.used = true
          · exact Or.inl (by simp [hu])
          · exact Or.inr (by simp [hu])
    rcases hsnd with hsnd | hsnd
    · rw [hsnd] at h
      have hp := (List.mem_filter.mp (lookupState_mem h)).2
      simpa using hp
    · rw [hsnd] at h
      rcases mem_markUsed_timestamp (lookupState_mem h) with ⟨d0, hd0, ht⟩
      have hp := (List.mem_filter.mp hd0).2
      rw [ht]
      simpa using hp

/-- Witness for C9: both operations at time 700 on a store holding a
fresh and a stale record leave only in-window records. -/
theorem state_ops_leave_no_expired_witness :
    (lookupState (store_oauth_state [("b", ⟨650, false⟩)] "a" 700) "b" =
        some ⟨650, false⟩ → (700 : Int) - (650 : Int) ≤ 600)
    ∧ (lookupState (verify_oauth_state [("b", ⟨650, false⟩)] "b" 700).2 "b" =
        some ⟨650, false⟩ → (700 : Int) - (650 : Int) ≤ 600) := by
  have h := state_ops_leave_no_expired [("b", ⟨650, false⟩)] "a" "b" 700 ⟨650, false⟩
  have h2 := state_ops_leave_no_expired [("b", ⟨650, false⟩)] "b" "b" 700 ⟨650, false⟩
  exact ⟨fun hh => h.1 hh, fun hh => h2.2 hh⟩

/-- C10: store_oauth_state called with a state string already present in
the store (here: an already-consumed record) silently overwrites it,
resetting the consumed flag to false and the timestamp to now, so the
token becomes consumable again within the 600-second window. -/
theorem store_oauth_state_overwrites (m : StateMap) (s : String) (now : Int)
    (d0 : StateData) (hnd : NodupKeys m)
    (hprev : lookupState m s = some d0) (hused : d0.used = true) :
    lookupState (store_oauth_state m s now) s =
      some { timestamp := now, used := false }
    ∧ ∀ t, now ≤ t → t ≤ now + 600 →
        (verify_oauth_state (store_oauth_state m s now) s t).1 = true := by
  constructor
  · exact lookupState_insertState_self _ _ _
  · intro t h1 h2
    have hndS : NodupKeys (store_oauth_state m s now) :=
      nodupKeys_insertState _ _ (nodupKeys_filter _ hnd)
    have hlook : lookupState (store_oauth_state m s now) s =
        some { timestamp := now, used := false } :=
      lookupState_insertState_self _ _ _
    rw [verify_oauth_state_char _ _ _ hndS, hlook]
    have ht : t - now ≤ 600 := by omega
    simp [ht]

/-- Witness for C10: re-issuing a consumed state "a" resets its record
and makes it consumable again one second later. -/
theorem store_oauth_state_overwrites_witness :
    lookupState (store_oauth_state [("a", ⟨0, true⟩)] "a" 5) "a" =
      some { timestamp := 5, used := false }
    ∧ (verify_oauth_state (store_oauth_state [("a", ⟨0, true⟩)] "a" 5) "a" 6).1 =
        true := by
  have h := store_oauth_state_overwrites [("a", ⟨0, true⟩)] "a" 5 ⟨0, true⟩
    (by decide) (by decide) (by decide)
  exact ⟨h.1, h.2 6 (by decide) (by decide)⟩

/-- C3: verify_jwt_token maps every input that is not a currently valid
token — a structurally malformed string, a well-formed token whose
signature was not produced from this secret and payload (tampered or
wrong key), or a token whose expiry has passed — to the single outcome
none: no claims are returned, and the expired case is indistinguishable
from the forged and malformed cases in the result. -/
theorem verify_jwt_token_invalid (secret raw : String) (now : Int)
    (p : Payload) (s : Sig) :
    verify_jwt_token secret now (SerializedToken.malformed raw) = none
    ∧ (s ≠ sign secret p →
        verify_jwt_token secret now (SerializedToken.wellFormed p s) = none)
    ∧ (p.exp ≤ now →
        verify_jwt_token secret now (SerializedToken.wellFormed p s) = none) := by
  refine ⟨rfl, ?_, ?_⟩
  · intro hs
    simp [verify_jwt_token, hs]
  · intro he
    by_cases hs : s = sign secret p
    · simp [verify_jwt_token, hs, he]
    · simp [verify_jwt_token, hs]

/-- Witness for C3: a malformed string, a token signed under a different
secret, and an expired token all verify to none. -/
theorem verify_jwt_token_invalid_witness :
    verify_jwt_token "k" 100 (SerializedToken.malformed "x") = none
    ∧ verify_jwt_token "k" 100 (SerializedToken.wellFormed
        { sub := "s", email := "e", name := "n", role := "user", picture := "",
          exp := 28800 }
        (sign "wrongkey"
          { sub := "s", email := "e", name := "n", role := "user", picture := "",
            exp := 28800 })) = none
    ∧ verify_jwt_token "k" 30000 (SerializedToken.wellFormed
        { sub := "s", email := "e", name := "n", role := "user", picture := "",
          exp := 28800 }
        (sign "k"
          { sub := "s", email := "e", name := "n", role := "user", picture := "",
            exp := 28800 })) = none := by
  have h1 := verify_jwt_token_invalid "k" "x" 100
    { sub := "s", email := "e", name := "n", role := "user", picture := "",
      exp := 28800 }
    (sign "wrongkey"
      { sub := "s", email := "e", name := "n", role := "user", picture := "",
        exp := 28800 })
  have h2 := verify_jwt_token_invalid "k" "x" 30000
    { sub := "s", email := "e", name := "n", role := "user", picture := "",
      exp := 28800 }
    (sign "k"
      { sub := "s", email := "e", name := "n", role := "user", picture := "",
        exp := 28800 })
  exact ⟨h1.1, h1.2.1 (by decide), h2.2.2 (by decide)⟩

/-- C4: verifying a token minted by create_jwt_token with the same
signing secret, at any time from issuance until strictly less than
8 hours later, succeeds and returns claims equal to the identity's
sub, email, name, role and picture fields. -/
theorem verify_create_jwt_roundtrip (secret : String) (u : UserInfo)
    (t0 now : Int) (h1 : t0 ≤ now) (h2 : now < t0 + 28800) :
    verify_jwt_token secret now (create_jwt_token secret t0 u) =
      some { sub := u.sub, email := u.email, name := u.name, role := u.role,
             picture := u.picture, exp := t0 + 28800 } := by
  have hexp : ¬ ((t0 + 28800 : Int) ≤ now) := by omega
  simp [create_jwt_token, verify_jwt_token, create_jwt_payload, hexp]

/-- Witness for C4: a concrete identity round-trips ten seconds after
issuance. -/
theorem verify_create_jwt_roundtrip_witness :
    verify_jwt_token "k" 10 (create_jwt_token "k" 0 ⟨"s", "e", "n", "user", "p"⟩) =
      some { sub := "s", email := "e", name := "n", role := "user",
             picture := "p", exp := 0 + 28800 } :=
  verify_create_jwt_roundtrip "k" ⟨"s", "e", "n", "user", "p"⟩ 0 10
    (by decide) (by decide)

/-- C5: the access decision for a verified request grants access iff the
route requires any authenticated user, or it requires admin and the role
claim equals the string admin; every other role value (user or any
unrecognized string) is denied admin access. -/
theorem authorize_spec (claims : Payload) (r : RequiredRole) :
    authorize claims r = true ↔
      (r = RequiredRole.anyAuthenticated ∨
        (r = RequiredRole.admin ∧ claims.role = "admin")) := by
  cases r
  · simp [authorize]
  · simp [authorize, admin_check]

/-- C8 (amended): every token minted by create_jwt_token carries exactly
the claims sub, email, name, role, picture and exp, with exp equal to the
issuance time plus 8 hours, and with the signature covering the full
payload; the issuance time is only implicit (exp minus 8 hours). -/
theorem create_jwt_token_claims (secret : String) (now : Int) (u : UserInfo) :
    ∃ p, create_jwt_token secret now u =
        SerializedToken.wellFormed p (sign secret p)
      ∧ p.sub = u.sub ∧ p.email = u.email ∧ p.name = u.name ∧ p.role = u.role
      ∧ p.picture = u.picture ∧ p.exp = now + 28800
      ∧ p.toDict.map Prod.fst = payloadKeys :=
  ⟨create_jwt_payload now u, rfl, rfl, rfl, rfl, rfl, rfl, rfl, rfl⟩

/-- Counterexample to C8 as stated: the signed claim set of a concrete
token consists of the keys sub, email, name, role, picture and exp only;
it carries no issued_at (iat) claim. -/
theorem create_jwt_token_no_issued_at :
    (create_jwt_payload 0 ⟨"s", "e", "n", "user", ""⟩).toDict.map Prod.fst =
      payloadKeys
    ∧ "issued_at" ∉ payloadKeys ∧ "iat" ∉ payloadKeys := by
  refine ⟨rfl, ?_, ?_⟩ <;> decide

/-- C7 (amended): refresh_token is verify followed by issue: an input
that does not verify yields none (401, no token issued); on verified
claims p it yields a token signed with the same secret whose sub, email
and role equal p's and whose exp is the refresh time plus 8 hours — a
fresh window whose implicit issuance time is the refresh time, strictly
later than the original issuance whenever the refresh happens strictly
after it. -/
theorem refresh_token_spec (secret : String) (now : Int) (t : SerializedToken) :
    (verify_jwt_token secret now t = none → refresh_token secret now t = none)
    ∧ ∀ p, verify_jwt_token secret now t = some p →
        ∃ q, refresh_token secret now t =
            some (SerializedToken.wellFormed q (sign secret q))
          ∧ q.sub = p.sub ∧ q.email = p.email ∧ q.role = p.role
          ∧ q.exp = now + 28800
          ∧ (p.exp - 28800 < now → p.exp - 28800 < q.exp - 28800) := by
  constructor
  · intro h
    simp [refresh_token, h]
  · intro p h
    refine ⟨create_jwt_payload now
      { sub := p.sub, email := p.email, name := p.name, role := p.role,
        picture := p.picture }, ?_, rfl, rfl, rfl, rfl, ?_⟩
    · simp [refresh_token, h, create_jwt_token]
    · intro hlt
      simp only [create_jwt_payload]
      omega

/-- Witness for C7: a non-verifying input is refused, and a token issued
at time 0 refreshed at time 1 gets the fresh window. -/
theorem refresh_token_spec_witness :
    refresh_token "k" 0 (SerializedToken.malformed "x") = none
    ∧ ∃ q, refresh_token "k" 1 (create_jwt_token "k" 0 ⟨"s", "e", "n", "user", ""⟩) =
          some (SerializedToken.wellFormed q (sign "k" q))
        ∧ q.sub = (create_jwt_payload 0 ⟨"s", "e", "n", "user", ""⟩).sub
        ∧ q.email = (create_jwt_payload 0 ⟨"s", "e", "n", "user", ""⟩).email
        ∧ q.role = (create_jwt_payload 0 ⟨"s", "e", "n", "user", ""⟩).role
        ∧ q.exp = 1 + 28800
        ∧ ((create_jwt_payload 0 ⟨"s", "e", "n", "user", ""⟩).exp - 28800 < 1 →
            (create_jwt_payload 0 ⟨"s", "e", "n", "user", ""⟩).exp - 28800 <
              q.exp - 28800) :=
  ⟨(refresh_token_spec "k" 0 (SerializedToken.malformed "x")).1 rfl,
   (refresh_token_spec "k" 1 (create_jwt_token "k" 0 ⟨"s", "e", "n", "user", ""⟩)).2
     (create_jwt_payload 0 ⟨"s", "e", "n", "user", ""⟩) (by decide)⟩

/-- Counterexample to C7 as stated: refreshing a currently-valid token at
the very timestamp at which it was issued returns the identical token, so
the refreshed token's implicit issuance time (exp minus 8 hours) is equal
to, not strictly later than, the original's. -/
theorem refresh_token_same_instant :
    refresh_token "k" 0 (create_jwt_token "k" 0 ⟨"s", "e", "n", "user", ""⟩) =
      some (create_jwt_token "k" 0 ⟨"s", "e", "n", "user", ""⟩) := by
  decide

/-- C6 (amended): in oauth_callback the state check runs first and the
missing-code check second, both before any external call: when the state
check fails the outcome is state_mismatch regardless of the code
parameter, and when the state check succeeds and the code parameter is
absent the outcome is the missing-code rejection (no_code), never a
proceed to the external exchange. -/
theorem oauth_callback_order (m : StateMap) (session st c : Option String)
    (now : Int) :
    ((callback_state_check m session st now).1 = false →
        (oauth_callback_pre m session st c now).1 = CallbackStep.state_mismatch)
    ∧ ((callback_state_check m session st now).1 = true →
        (oauth_callback_pre m session st none now).1 = CallbackStep.no_code) := by
  constructor
  · intro h
    simp [oauth_callback_pre, h]
  · intro h
    simp [oauth_callback_pre, h]

/-- Witness for C6 (amended): an unknown state is rejected as
state_mismatch even with a code present, and a valid state with a
missing code is rejected as no_code. -/
theorem oauth_callback_order_witness :
    (oauth_callback_pre [] none (some "s1") (some "c") 0).1 =
      CallbackStep.state_mismatch
    ∧ (oauth_callback_pre [("a", ⟨0, false⟩)] none (some "a") none 5).1 =
        CallbackStep.no_code :=
  ⟨(oauth_callback_order [] none (some "s1") (some "c") 0).1 (by decide),
   (oauth_callback_order [("a", ⟨0, false⟩)] none (some "a") none 5).2 (by decide)⟩

/-- Counterexample to C6 as stated: a callback with the code parameter
absent and an invalid state (empty store, no session echo) is rejected
with state_mismatch, not with the missing-code rejection — so the
missing-code check does not precede the state check. -/
theorem oauth_callback_missing_code_not_first :
    (oauth_callback_pre [] none (some "s1") none 0).1 = CallbackStep.state_mismatch
    ∧ (oauth_callback_pre [] none (some "s1") none 0).1 ≠ CallbackStep.no_code := by
  decide

/-- C1 evaluation at the failing input: with state S1 issued at time 0
and the session cookie echoing S1, a first callback at time 0 proceeds
(consuming S1); a second callback one second later with the same state
and session cookie also proceeds, via the session-echo fallback, instead
of failing with state_mismatch although S1 was already consumed and the
store had not lost the record to a restart. -/
theorem oauth_callback_replay_accepted :
    (oauth_callback_pre [("S1", ⟨0, false⟩)] (some "S1") (some "S1") (some "c") 0).1 =
      CallbackStep.proceed "c"
    ∧ (oauth_callback_pre
        (oauth_callback_pre [("S1", ⟨0, false⟩)] (some "S1") (some "S1") (some "c") 0).2
        (some "S1") (some "S1") (some "c") 1).1 = CallbackStep.proceed "c"
    ∧ (oauth_callback_pre
        (oauth_callback_pre [("S1", ⟨0, false⟩)] (some "S1") (some "S1") (some "c") 0).2
        (some "S1") (some "S1") (some "c") 1).1 ≠ CallbackStep.state_mismatch := by
  decide
